import Mathlib

/-!
Verification of the go-database repository (package `database`): a shallow
embedding of its retry executor (src/retry.go), migration loader and registry
(src/unnamed/part_005, src/registry.go), prefixed migration runner
(src/unnamed/part_003) and status reporting (src/migrator.go), together with
theorems settling the spec claims about them.

Modelling conventions:
- Go `time.Duration` (an int64 count of nanoseconds) is an `Int`; 64-bit
  wrap-around is made explicit with `wrap64` where a Go multiplication or
  shift can overflow.
- Go `float64` arithmetic in the jitter computation is modelled as exact
  rational arithmetic; the `time.Duration(...)` conversion of a float is
  truncation toward zero (`ratTrunc`).
- Go strings are Lean `String`s; the few `strings.*` helpers the code uses
  (Contains, Split, SplitN, Join, HasSuffix, TrimSuffix) are implemented
  on `List Char` so that concrete evaluations reduce in the kernel.
- A directory is modelled as the list of `(basename, file content)` pairs
  that `filepath.Glob(dir, "*.sql")` returns (lexically sorted `*.sql`
  entries); `os.ReadFile` never fails in the model (its error path is
  environmental, not part of any claim).
-/

namespace GoDatabase

/-! ## List-of-char string helpers (strings.HasSuffix / TrimSuffix / Contains / Split) -/

/-- Does the list start with the pattern? (`strings.HasPrefix` on char lists.) -/
def listStartsWith : List Char → List Char → Bool
  | _, [] => true
  | [], _ :: _ => false
  | c :: s, p :: ps => c == p && listStartsWith s ps

/-- Go `strings.Contains s pat` on char lists: some tail of `s` starts with `pat`. -/
def listContainsSub (pat : List Char) : List Char → Bool
  | [] => listStartsWith [] pat
  | c :: rest => listStartsWith (c :: rest) pat || listContainsSub pat rest

/-- Go `strings.Contains(s, sub)`. -/
def goContains (s sub : String) : Bool :=
  listContainsSub sub.toList s.toList

/-- Go `strings.HasSuffix` on char lists. -/
def listEndsWith (s pat : List Char) : Bool :=
  listStartsWith s.reverse pat.reverse

/-- Go `strings.TrimSuffix` on char lists: drops the suffix when present,
otherwise returns the list unchanged. -/
def listTrimSuffix (s pat : List Char) : List Char :=
  if listEndsWith s pat then s.take (s.length - pat.length) else s

/-- Go `strings.Split(s, sep)` for a one-character separator, on char lists.
Mirrors Go: splitting the empty string gives `[""]`, a trailing separator
gives a trailing empty part. -/
def splitOnCharList (sep : Char) : List Char → List (List Char)
  | [] => [[]]
  | c :: rest =>
    let r := splitOnCharList sep rest
    if c == sep then [] :: r
    else (c :: r.headD []) :: r.tail

/-- Go `strings.Join(parts, sep)` for a one-character separator, on char lists. -/
def listJoinSep (sep : Char) : List (List Char) → List Char
  | [] => []
  | [x] => x
  | x :: y :: rest => x ++ sep :: listJoinSep sep (y :: rest)

/-- Go `strings.SplitN(s, "_", 2)` on char lists: the part before the first
underscore, and the rest when an underscore exists. -/
def splitFirstUnderscore : List Char → List Char × Option (List Char)
  | [] => ([], none)
  | c :: rest =>
    if c == '_' then ([], some rest)
    else
      let r := splitFirstUnderscore rest
      (c :: r.1, r.2)

/-- The maximal run of leading decimal digits. -/
def leadingDigits : List Char → List Char
  | [] => []
  | c :: rest => if c.isDigit then c :: leadingDigits rest else []

/-- Decimal value of a digit run. -/
def digitsToNat (ds : List Char) : Nat :=
  ds.foldl (fun acc c => acc * 10 + (c.toNat - 48)) 0

/-- Models `fmt.Sscanf(s, "%d", &v)` into a `uint`: succeeds exactly when `s`
starts with a decimal digit, reading the maximal leading digit run (`Sscanf`
ignores input after the verb). -/
def sscanfUintChars (s : List Char) : Option Nat :=
  let ds := leadingDigits s
  if ds.isEmpty then none else some (digitsToNat ds)

/-! ## Retry executor (src/retry.go) -/

/-- Go struct `RetryConfig` (retry.go:20-25). Durations are int64 nanosecond counts;
`JitterPercent` is a float64, modelled as a rational. -/
structure RetryConfig where
  maxRetryDuration : Int
  baseDelay : Int
  maxDelay : Int
  jitterPercent : ℚ
deriving DecidableEq

/-- Go `DefaultRetryConfig` (retry.go:28-35): 30s / 10ms / 1s / ±25%. -/
def DefaultRetryConfig : RetryConfig :=
  { maxRetryDuration := 30000000000
  , baseDelay := 10000000
  , maxDelay := 1000000000
  , jitterPercent := 1 / 4 }

/-- A Go error, identified by the text its `Error()` method reports. -/
structure GoError where
  msg : String
deriving DecidableEq

/-- Wrap an integer into the two's-complement int64 range, as Go arithmetic does. -/
def wrap64 (x : Int) : Int :=
  (x + 2 ^ 63) % 2 ^ 64 - 2 ^ 63

/-- Go `1 << uint(attempt)` at type `int` (64-bit): the shifted value wrapped
to int64; Go defines a shift by 64 or more to produce 0. -/
def goShlOneInt (s : Nat) : Int :=
  if s < 64 then wrap64 (2 ^ s) else 0

/-- retry.go:53: the error is retried only when its text contains
"database is locked" or "SQLITE_BUSY" (this is the negation of the
non-retryable guard `!strings.Contains(..) && !strings.Contains(..)`). -/
def isRetryableError (e : GoError) : Bool :=
  goContains e.msg "database is locked" || goContains e.msg "SQLITE_BUSY"

/-- retry.go:68-72: `multiplier := 1 << uint(attempt)`;
`baseDelay := time.Duration(int64(config.BaseDelay) * int64(multiplier))`;
capped at `config.MaxDelay`. Both the shift and the product wrap at 64 bits. -/
def computeBaseDelay (config : RetryConfig) (attempt : Nat) : Int :=
  let multiplier := goShlOneInt attempt
  let baseDelay := wrap64 (config.baseDelay * multiplier)
  if config.maxDelay < baseDelay then config.maxDelay else baseDelay

/-- Truncation of a rational toward zero: Go's conversion of a float64 to an
integer type (`time.Duration(...)`). -/
def ratTrunc (q : ℚ) : Int :=
  if q < 0 then -Int.floor (-q) else Int.floor q

/-- retry.go:75-76: `jitterRange := float64(baseDelay) * config.JitterPercent`;
`jitter := time.Duration(rand.Float64()*jitterRange*2 - jitterRange)`.
`u` stands for the value `rand.Float64()` returned, a rational in [0, 1);
float64 arithmetic is modelled exactly. -/
def computeJitter (baseDelay : Int) (jitterPercent u : ℚ) : Int :=
  let jitterRange : ℚ := (baseDelay : ℚ) * jitterPercent
  ratTrunc (u * jitterRange * 2 - jitterRange)

/-- retry.go:66-87: the delay for this attempt after jitter, the negative-delay
substitution (`if delay < 0 { delay = config.BaseDelay }`) and the clamp to the
remaining budget, but before the final `delay <= 0` termination check. -/
def computeDelay (config : RetryConfig) (attempt : Nat) (elapsed : Int) (u : ℚ) : Int :=
  let baseDelay := computeBaseDelay config attempt
  let jitter := computeJitter baseDelay config.jitterPercent u
  let delay0 := baseDelay + jitter
  let delay1 := if delay0 < 0 then config.baseDelay else delay0
  let remaining := config.maxRetryDuration - elapsed
  if remaining < delay1 then remaining else delay1

/-- Outcome of one iteration of the retry loop body: return from the function,
or sleep for the given duration and run the operation again. -/
inductive RetryStep where
  | ret (r : Option GoError)
  | sleepRetry (delay : Int)
deriving DecidableEq

/-- One iteration of the loop body of `retryDatabaseOperation`
(retry.go:43-97). `res` is what `operation()` returned (`none` = nil error),
`elapsed` is `time.Since(startTime)` measured after the operation, `u` is the
random sample used for jitter. -/
def retryStep (config : RetryConfig) (attempt : Nat) (elapsed : Int)
    (res : Option GoError) (u : ℚ) : RetryStep :=
  match res with
  | none => RetryStep.ret none
  | some e =>
    if isRetryableError e = false then RetryStep.ret (some e)
    else if config.maxRetryDuration ≤ elapsed then RetryStep.ret (some e)
    else
      let delay := computeDelay config attempt elapsed u
      if delay ≤ 0 then RetryStep.ret (some e)
      else RetryStep.sleepRetry delay

/-- The retry loop (retry.go:43-97), fuel-indexed. `results i` is what the
i-th invocation of `operation()` returns, `opDur i` the wall-clock time that
invocation takes, `us i` the jitter sample of iteration i; `clock` is the time
elapsed since `startTime` when the iteration starts. Returns the operation's
final error (`none` = success) paired with the number of invocations made;
`none` means the fuel ran out before the loop returned. -/
def retryLoop (config : RetryConfig) (results : Nat → Option GoError)
    (opDur : Nat → Int) (us : Nat → ℚ) :
    Nat → Nat → Int → Option (Option GoError × Nat)
  | 0, _, _ => none
  | fuel + 1, attempt, clock =>
    let elapsed := clock + opDur attempt
    match retryStep config attempt elapsed (results attempt) (us attempt) with
    | RetryStep.ret r => some (r, attempt + 1)
    | RetryStep.sleepRetry d => retryLoop config results opDur us fuel (attempt + 1) (elapsed + d)

/-- Go `retryDatabaseOperation(operation, config)` (retry.go:38): run the loop
from attempt 0 at elapsed time 0. -/
def retryDatabaseOperation (config : RetryConfig) (results : Nat → Option GoError)
    (opDur : Nat → Int) (us : Nat → ℚ) (fuel : Nat) : Option (Option GoError × Nat) :=
  retryLoop config results opDur us fuel 0 0

/-! ## Migration data model, loader and registry (src/unnamed/part_005) -/

/-- Go struct `MigrationSource` (part_005:15-20). `embedFS` records whether the Go
`EmbedFS *embed.FS` pointer is non-nil; `pfx` is the Go field `Prefix`. -/
structure MigrationSource where
  name : String
  directory : String
  embedFS : Bool
  pfx : String
deriving DecidableEq

/-- Go struct `Migration` (part_005:23-29); `Version` is a Go `uint`. -/
structure Migration where
  version : Nat
  name : String
  source : String
  upContent : String
  downContent : String
deriving DecidableEq

/-- part_005:139-146: fetch-or-create the `migrationMap` entry for `version`
and set its `UpContent` (a pre-existing entry keeps its `Name` and `Source`;
a second up file for the same version silently overwrites the content). -/
def mapSetUp : List (Nat × Migration) → Nat → String → String → String → List (Nat × Migration)
  | [], version, name, src, content => [(version, ⟨version, name, src, content, ""⟩)]
  | (k, mig) :: rest, version, name, src, content =>
    if k = version then (k, { mig with upContent := content }) :: rest
    else (k, mig) :: mapSetUp rest version name src content

/-- part_005:156-163: same for `DownContent`. -/
def mapSetDown : List (Nat × Migration) → Nat → String → String → String → List (Nat × Migration)
  | [], version, name, src, content => [(version, ⟨version, name, src, "", content⟩)]
  | (k, mig) :: rest, version, name, src, content =>
    if k = version then (k, { mig with downContent := content }) :: rest
    else (k, mig) :: mapSetDown rest version name src content

/-- The character list of ".up.sql". -/
def upSqlSuffixChars : List Char := ".up.sql".toList

/-- The character list of ".down.sql". -/
def downSqlSuffixChars : List Char := ".down.sql".toList

/-- The body of the per-file loop of `loadMigrationsFromDirectory`
(part_005:113-165): split the basename on "_"; fewer than 2 parts, an
unparseable version, or a name without a ".up.sql"/".down.sql" suffix are all
silently skipped (`continue` / fallthrough); otherwise the up or down content
is stored in the version map. -/
def processEntry (sourceName : String) (m : List (Nat × Migration))
    (entry : String × String) : List (Nat × Migration) :=
  let parts := splitOnCharList '_' entry.1.toList
  if parts.length < 2 then m
  else
    match sscanfUintChars (parts.headD []) with
    | none => m
    | some version =>
      let nameAndType := listJoinSep '_' parts.tail
      if listEndsWith nameAndType upSqlSuffixChars then
        mapSetUp m version (String.mk (listTrimSuffix nameAndType upSqlSuffixChars)) sourceName entry.2
      else if listEndsWith nameAndType downSqlSuffixChars then
        mapSetDown m version (String.mk (listTrimSuffix nameAndType downSqlSuffixChars)) sourceName entry.2
      else m

/-- Insert a migration into a list sorted by ascending version. -/
def insertByVersion (mig : Migration) : List Migration → List Migration
  | [] => [mig]
  | m :: rest =>
    if mig.version < m.version then mig :: m :: rest
    else m :: insertByVersion mig rest

/-- part_005:173-176: `sort.Slice(migrations, ...Version < ...Version)`.
Map keys are distinct versions, so any comparison sort yields this result. -/
def sortByVersion (ms : List Migration) : List Migration :=
  ms.foldr insertByVersion []

/-- Go `loadMigrationsFromDirectory` (part_005:101-180) over the model directory
listing `entries` (the `filepath.Glob(dir, "*.sql")` result with file
contents). The only Go error paths are the Glob and ReadFile failures, which
are environmental and not modelled: no parse or validation problem ever
produces an error, and `validateMigrationSequence` is never invoked. -/
def loadMigrationsFromDirectory (sourceName : String)
    (entries : List (String × String)) : Except String (List Migration) :=
  Except.ok (sortByVersion ((entries.foldl (processEntry sourceName) []).map Prod.snd))

/-- Go `loadMigrationsFromEmbed` (part_005:183-193): a placeholder that always
returns the empty migration list. -/
def loadMigrationsFromEmbed (_source : MigrationSource) : Except String (List Migration) :=
  Except.ok []

/-- Go `loadMigrationsFromSource` (part_005:90-98). `fs` maps a directory path to
its Glob listing. -/
def loadMigrationsFromSource (fs : String → List (String × String))
    (source : MigrationSource) : Except String (List Migration) :=
  if source.embedFS then loadMigrationsFromEmbed source
  else if source.directory ≠ "" then loadMigrationsFromDirectory source.name (fs source.directory)
  else Except.error ("migration source " ++ source.name ++ " has neither Directory nor EmbedFS specified")

/-- The loop of `validateMigrationSequence` (part_005:224-230), carrying
`expectedVersion`. -/
def validateFrom : Nat → List Migration → Except String Unit
  | _, [] => Except.ok ()
  | expected, m :: rest =>
    if m.version ≠ expected then
      Except.error ("migration sequence gap: expected version " ++ toString expected
        ++ ", found " ++ toString m.version)
    else validateFrom (expected + 1) rest

/-- Go `validateMigrationSequence` (part_005:219-233). Defined in the source but
never called by any loader or runner. -/
def validateMigrationSequence (migrations : List Migration) : Except String Unit :=
  if migrations.isEmpty then Except.ok () else validateFrom 1 migrations

/-- Second stage of `parseMigrationFilename` (part_005:237-270): split the
trimmed base on the first "_" and parse the version. The Go error for a bad
version wraps the `Sscanf` cause after the text kept here. The `filename`
argument is the original name used in error messages, `up` the direction. -/
def parseVersionName (base : List Char) (filename : String) (up : Bool) :
    Except String (Nat × String × Bool) :=
  match splitFirstUnderscore base with
  | (_, none) =>
    Except.error ("migration filename must be in format VERSION_name: " ++ filename)
  | (v, some rest) =>
    match sscanfUintChars v with
    | none => Except.error ("invalid version number in filename " ++ filename)
    | some versionNum => Except.ok (versionNum, String.mk rest, up)

/-- Go `parseMigrationFilename` (part_005:237-270): extracts version, name and
direction from `<version>_<name>.<up|down>.sql`, rejecting anything else with
an error naming the file. Defined in the source but never called by
`loadMigrationsFromDirectory` or anything else in the repository. The
argument is a basename (`filepath.Base` is the identity on it). -/
def parseMigrationFilename (filename : String) : Except String (Nat × String × Bool) :=
  let base := filename.toList
  if listEndsWith base ".sql".toList = false then
    Except.error ("migration file must have .sql extension: " ++ filename)
  else
    let base1 := listTrimSuffix base ".sql".toList
    if listEndsWith base1 ".up".toList then
      parseVersionName (listTrimSuffix base1 ".up".toList) filename true
    else if listEndsWith base1 ".down".toList then
      parseVersionName (listTrimSuffix base1 ".down".toList) filename false
    else
      Except.error ("migration file must end with .up.sql or .down.sql: " ++ filename)

/-! ## Registry (part_005:31-60, src/registry.go:20-49) -/

/-- Go `RegisterMigrations(source)` (part_005:43-49): append to the registry's
source slice, with no deduplication and no validation. The registry state is
the slice contents. -/
def RegisterMigrations (st : List MigrationSource) (source : MigrationSource) :
    List MigrationSource :=
  st ++ [source]

/-- A sequence of `RegisterMigrations` calls, in call order. -/
def registerAll (st : List MigrationSource) (calls : List MigrationSource) :
    List MigrationSource :=
  calls.foldl RegisterMigrations st

/-- Go `GetRegisteredSources()` (part_005:52-60): `make` a fresh slice of the
same length and `copy` the registry contents into it, element by element. -/
def GetRegisteredSources (st : List MigrationSource) : List MigrationSource :=
  st.foldl (fun acc s => acc ++ [s]) []

/-- A client that takes a snapshot and then mutates the returned slice with
`f`. The `copy` in `GetRegisteredSources` gives the snapshot its own backing
array, so writes to it cannot reach the registry cell: the pair is the
registry state afterwards and the client's mutated slice. -/
def snapshotThenMutate (st : List MigrationSource)
    (f : List MigrationSource → List MigrationSource) :
    List MigrationSource × List MigrationSource :=
  (st, f (GetRegisteredSources st))

/-! ## Prefixed migration runner (src/unnamed/part_003, lines 100-291) -/

/-- The version-tracking table the runner selects for a prefix
(part_003:162-222): an empty prefix takes the legacy path, whose engine
default table is `schema_migrations`; a non-empty prefix passes
`x-migrations-table=<prefix>schema_migrations` to the engine. -/
def resolveTrackingTable (pfx : String) : String :=
  if pfx = "" then "schema_migrations" else pfx ++ "schema_migrations"

/-- The observable outcome of handing one source to the external migration
engine (`m.Up()` through `runMigrationsFromDirectoryWithPrefix` /
`runEmbeddedMigrations`): the `(tracking table, version)` rows the engine
durably recorded before returning, and its error text if it failed
(`none` = success, with `ErrNoChange` already mapped to success by the
runner). -/
structure SourceRun where
  applied : List (String × Nat)
  result : Option String
deriving DecidableEq

/-- The rows a source contributes when `UpAll` processes it: sources with
neither an embedded filesystem nor a directory are skipped without touching
the engine. -/
def sourceEffect (run : MigrationSource → SourceRun) (s : MigrationSource) :
    List (String × Nat) :=
  if s.embedFS then (run s).applied
  else if s.directory ≠ "" then (run s).applied
  else []

/-- Go `UpAll()` (part_003:115-154) over the snapshot list of sources, with the
engine modelled by `run`. Returns the applied rows accumulated across the
processed sources (applied rows are durable database state and are never
rolled back) and the function's error result: on an engine failure the wrap
`failed to run embedded|directory migrations for <name>: <cause>` is returned
at once and no later source is processed. -/
def UpAll (run : MigrationSource → SourceRun) :
    List MigrationSource → List (String × Nat) × Option String
  | [] => ([], none)
  | s :: rest =>
    if s.embedFS then
      match (run s).result with
      | some e =>
        ((run s).applied, some ("failed to run embedded migrations for " ++ s.name ++ ": " ++ e))
      | none =>
        let r := UpAll run rest
        ((run s).applied ++ r.1, r.2)
    else if s.directory ≠ "" then
      match (run s).result with
      | some e =>
        ((run s).applied, some ("failed to run directory migrations for " ++ s.name ++ ": " ++ e))
      | none =>
        let r := UpAll run rest
        ((run s).applied ++ r.1, r.2)
    else UpAll run rest

/-! ## Status reporting (src/migrator.go:278-304) -/

/-- One source's entry in the `GetMigrationStatus` map: keys `name`,
`has_directory`, `has_embed`, optional `error`, and `migration_count`. -/
structure SourceStatus where
  name : String
  hasDirectory : Bool
  hasEmbed : Bool
  errMsg : Option String
  migrationCount : Nat
deriving DecidableEq

/-- The per-source body of `GetMigrationStatus` (migrator.go:285-301): a load
failure is stored as the entry's `error` string with `migration_count` 0, a
success stores the migration count. -/
def sourceStatusOf (fs : String → List (String × String)) (source : MigrationSource) :
    SourceStatus :=
  match loadMigrationsFromSource fs source with
  | Except.error e => ⟨source.name, source.directory != "", source.embedFS, some e, 0⟩
  | Except.ok ms => ⟨source.name, source.directory != "", source.embedFS, none, ms.length⟩

/-- Go `GetMigrationStatus()` (migrator.go:278-304): reads the registry snapshot
and builds the status map (`registered_sources` count and per-source
entries); it mutates nothing and its Go error result is literally `nil`.
Returned as (registry state afterwards, (status map, error result)). -/
def GetMigrationStatus (st : List MigrationSource)
    (fs : String → List (String × String)) :
    List MigrationSource × (Nat × List SourceStatus) × Option String :=
  (st, ((GetRegisteredSources st).length,
        (GetRegisteredSources st).map (sourceStatusOf fs)), none)

end GoDatabase

namespace GoDatabase

/-! ## Arithmetic lemmas for the retry backoff -/

lemma wrap64_eq_self {x : Int} (h1 : -(2 ^ 63) ≤ x) (h2 : x < 2 ^ 63) : wrap64 x = x := by
  have e1 : (2:Int) ^ 63 = 9223372036854775808 := by norm_num
  have e2 : (2:Int) ^ 64 = 18446744073709551616 := by norm_num
  unfold wrap64
  rw [e1, e2]
  rw [e1] at h1 h2
  omega

lemma computeBaseDelay_eq (config : RetryConfig) (k : Nat)
    (hb : 0 ≤ config.baseDelay) (hk : k < 64)
    (hov : config.baseDelay * 2 ^ k < 2 ^ 63) :
    computeBaseDelay config k = min (config.baseDelay * 2 ^ k) config.maxDelay := by
  have hpow : (0:Int) < 2 ^ k := by positivity
  have hmul : wrap64 (config.baseDelay * goShlOneInt k) = config.baseDelay * 2 ^ k := by
    rcases eq_or_lt_of_le hb with h0 | h0
    · rw [← h0]
      norm_num [wrap64]
    · have h1 : (1:Int) ≤ config.baseDelay := h0
      have hk63 : (2:Int) ^ k < 2 ^ 63 := by
        have hle : (2:Int) ^ k ≤ config.baseDelay * 2 ^ k :=
          le_mul_of_one_le_left (le_of_lt hpow) h1
        linarith
      have hshl : goShlOneInt k = 2 ^ k := by
        unfold goShlOneInt
        rw [if_pos hk]
        have hneg : -((2:Int) ^ 63) ≤ 2 ^ k := by
          have : (0:Int) ≤ 2 ^ k := le_of_lt hpow
          have : -((2:Int) ^ 63) ≤ 0 := by norm_num
          linarith
        exact wrap64_eq_self hneg hk63
      rw [hshl]
      have hnn : (0:Int) ≤ config.baseDelay * 2 ^ k := mul_nonneg hb (le_of_lt hpow)
      have hneg : -((2:Int) ^ 63) ≤ config.baseDelay * 2 ^ k := by
        have : -((2:Int) ^ 63) ≤ 0 := by norm_num
        linarith
      exact wrap64_eq_self hneg hov
  show (if config.maxDelay < wrap64 (config.baseDelay * goShlOneInt k) then config.maxDelay
        else wrap64 (config.baseDelay * goShlOneInt k)) = _
  rw [hmul]
  split_ifs with h <;> omega

lemma ratTrunc_bounds {q r : ℚ} (h1 : -r ≤ q) (h2 : q ≤ r) :
    -r ≤ (ratTrunc q : ℚ) ∧ (ratTrunc q : ℚ) ≤ r := by
  have hr : (0:ℚ) ≤ r := by linarith
  unfold ratTrunc
  split_ifs with hq
  · constructor
    · have hf := Int.floor_le (-q)
      push_cast
      linarith
    · have hf : (0:ℚ) ≤ ((Int.floor (-q) : Int) : ℚ) := by
        exact_mod_cast Int.floor_nonneg.mpr (by linarith)
      push_cast at hf ⊢
      linarith
  · constructor
    · have hf : (0:ℚ) ≤ ((Int.floor q : Int) : ℚ) := by
        exact_mod_cast Int.floor_nonneg.mpr (by linarith)
      push_cast at hf
      linarith
    · have hf := Int.floor_le q
      linarith

lemma computeJitter_bounds (b : Int) (j u : ℚ) (hb : 0 ≤ b) (hj : 0 ≤ j)
    (hu0 : 0 ≤ u) (hu1 : u ≤ 1) :
    -((b:ℚ) * j) ≤ (computeJitter b j u : ℚ) ∧ (computeJitter b j u : ℚ) ≤ (b:ℚ) * j := by
  have hbq : (0:ℚ) ≤ (b:ℚ) := by exact_mod_cast hb
  have hjr : (0:ℚ) ≤ (b:ℚ) * j := mul_nonneg hbq hj
  unfold computeJitter
  apply ratTrunc_bounds
  · nlinarith [mul_nonneg hu0 hjr]
  · nlinarith [mul_nonneg (sub_nonneg.mpr hu1) hjr]

lemma computeDelay_le_remaining (config : RetryConfig) (k : Nat) (elapsed : Int) (u : ℚ) :
    computeDelay config k elapsed u ≤ config.maxRetryDuration - elapsed := by
  simp only [computeDelay]
  split_ifs <;> omega


/-- C1 (amended): for an attempt k whose exponential BaseDelay * 2^k does not
overflow int64, the pre-jitter delay equals min(BaseDelay * 2^k, MaxDelay);
for a jitter percent in [0, 1] (and nonnegative BaseDelay and MaxDelay) the
post-jitter delay d0 lies in [(1-j)*base, (1+j)*base] and the final delay is
d0 clamped to the remaining budget MaxRetryDuration - elapsed, hence
nonnegative whenever budget remains. -/
theorem retry_backoff_delay_bounds (config : RetryConfig) (k : Nat) (elapsed : Int) (u : ℚ)
    (hb : 0 ≤ config.baseDelay) (hm : 0 ≤ config.maxDelay) (hk : k < 64)
    (hov : config.baseDelay * 2 ^ k < 2 ^ 63)
    (hj0 : 0 ≤ config.jitterPercent) (hj1 : config.jitterPercent ≤ 1)
    (hu0 : 0 ≤ u) (hu1 : u ≤ 1) :
    computeBaseDelay config k = min (config.baseDelay * 2 ^ k) config.maxDelay ∧
    (∃ d0 : Int,
      computeDelay config k elapsed u = min d0 (config.maxRetryDuration - elapsed) ∧
      (1 - config.jitterPercent) * ((computeBaseDelay config k : Int) : ℚ) ≤ (d0 : ℚ) ∧
      (d0 : ℚ) ≤ (1 + config.jitterPercent) * ((computeBaseDelay config k : Int) : ℚ)) ∧
    (0 ≤ config.maxRetryDuration - elapsed → 0 ≤ computeDelay config k elapsed u) := by
  have hbase := computeBaseDelay_eq config k hb hk hov
  have hB0 : 0 ≤ computeBaseDelay config k := by
    rw [hbase]
    exact le_min (mul_nonneg hb (pow_nonneg (by norm_num) k)) hm
  have hjb := computeJitter_bounds (computeBaseDelay config k) config.jitterPercent u hB0 hj0 hu0 hu1
  have hBq : (0:ℚ) ≤ ((computeBaseDelay config k : Int) : ℚ) := by exact_mod_cast hB0
  have hd0q : (0:ℚ) ≤ ((computeBaseDelay config k : Int) : ℚ)
      + ((computeJitter (computeBaseDelay config k) config.jitterPercent u : Int) : ℚ) := by
    nlinarith [hjb.1, mul_nonneg (sub_nonneg.mpr hj1) hBq]
  have hd0 : 0 ≤ computeBaseDelay config k
      + computeJitter (computeBaseDelay config k) config.jitterPercent u := by
    exact_mod_cast hd0q
  have heq : computeDelay config k elapsed u =
      min (computeBaseDelay config k + computeJitter (computeBaseDelay config k) config.jitterPercent u)
        (config.maxRetryDuration - elapsed) := by
    simp only [computeDelay]
    rw [if_neg (not_lt.mpr hd0)]
    split_ifs with h <;> omega
  refine ⟨hbase, ⟨_, heq, ?_, ?_⟩, fun h => ?_⟩
  · push_cast
    nlinarith [hjb.1]
  · push_cast
    nlinarith [hjb.2]
  · rw [heq]
    exact le_min hd0 h

/-- C1 witness: the amended theorem applied at the default configuration,
attempt 2, elapsed 1ms, random sample one half. -/
theorem retry_backoff_delay_bounds_witness :
    computeBaseDelay DefaultRetryConfig 2
        = min (DefaultRetryConfig.baseDelay * 2 ^ 2) DefaultRetryConfig.maxDelay ∧
    (∃ d0 : Int,
      computeDelay DefaultRetryConfig 2 1000000 (1/2)
          = min d0 (DefaultRetryConfig.maxRetryDuration - 1000000) ∧
      (1 - DefaultRetryConfig.jitterPercent) * ((computeBaseDelay DefaultRetryConfig 2 : Int) : ℚ) ≤ (d0 : ℚ) ∧
      (d0 : ℚ) ≤ (1 + DefaultRetryConfig.jitterPercent) * ((computeBaseDelay DefaultRetryConfig 2 : Int) : ℚ)) ∧
    (0 ≤ DefaultRetryConfig.maxRetryDuration - 1000000 →
      0 ≤ computeDelay DefaultRetryConfig 2 1000000 (1/2)) :=
  retry_backoff_delay_bounds DefaultRetryConfig 2 1000000 (1/2)
    (by norm_num [DefaultRetryConfig]) (by norm_num [DefaultRetryConfig])
    (by norm_num) (by norm_num [DefaultRetryConfig])
    (by norm_num [DefaultRetryConfig]) (by norm_num [DefaultRetryConfig])
    (by norm_num) (by norm_num)

/-- Jitter percent 0 produces a zero jitter for any base delay and sample. -/
lemma computeJitter_zero (b : Int) (u : ℚ) : computeJitter b 0 u = 0 := by
  simp [computeJitter, ratTrunc]

/-- In the configuration MaxRetryDuration 1s, BaseDelay 1ns, MaxDelay 1ns,
JitterPercent 0, every attempt below 64 computes a final delay of 1ns when at
most 100ns have elapsed: for attempts up to 62 the pre-jitter delay is 1ns,
and at attempt 63 the overflowed pre-jitter delay is negative, so the code
substitutes BaseDelay = 1ns. -/
lemma computeDelay_unitConfig (k : Nat) (c : Int) (hk : k < 64)
    (hc0 : 0 ≤ c) (hc : c ≤ 100) :
    computeDelay ⟨1000000000, 1, 1, 0⟩ k c 0 = 1 := by
  have hjit : computeJitter (computeBaseDelay ⟨1000000000, 1, 1, 0⟩ k) 0 0 = 0 :=
    computeJitter_zero _ 0
  by_cases h63 : k < 63
  · have hbase : computeBaseDelay ⟨1000000000, 1, 1, 0⟩ k = 1 := by
      have h := computeBaseDelay_eq ⟨1000000000, 1, 1, 0⟩ k (by norm_num) hk
        (by
          simp only
          have h2 : (2:Int) ^ k < 2 ^ 63 := by
            have := pow_lt_pow_right₀ (by norm_num : (1:Int) < 2) h63
            simpa using this
          simpa using h2)
      rw [h]
      simp only
      have h1 : (1:Int) ≤ 2 ^ k := one_le_pow₀ (by norm_num)
      omega
    simp only [computeDelay, hbase, computeJitter_zero]
    norm_num
    omega
  · have hk63 : k = 63 := by omega
    subst hk63
    have hbase : computeBaseDelay ⟨1000000000, 1, 1, 0⟩ 63 = -9223372036854775808 := by decide
    simp only [computeDelay, hbase, computeJitter_zero]
    norm_num
    omega

/-- With a 1ns base and max delay, a zero jitter percent, an op that always
reports a lock error instantly, the loop is still running after 64
invocations: attempt 63, where the int64 exponential overflows, is reached. -/
lemma retryLoop_unitConfig_reaches_64 :
    ∀ (fuel attempt : Nat), attempt + fuel ≤ 64 →
      retryLoop ⟨1000000000, 1, 1, 0⟩ (fun _ => some ⟨"database is locked"⟩)
        (fun _ => 0) (fun _ => 0) fuel attempt (attempt : Int) = none := by
  intro fuel
  induction fuel with
  | zero => intro attempt h; rfl
  | succ f ih =>
    intro attempt h
    have h1 : (attempt : Int) ≤ 63 := by exact_mod_cast Nat.le_of_lt_succ (by omega)
    have hstep : retryStep ⟨1000000000, 1, 1, 0⟩ attempt ((attempt : Int) + 0)
        (some ⟨"database is locked"⟩) 0 = RetryStep.sleepRetry 1 := by
      have hre : isRetryableError ⟨"database is locked"⟩ = true := by decide
      have hdel : computeDelay ⟨1000000000, 1, 1, 0⟩ attempt ((attempt : Int) + 0) 0 = 1 := by
        apply computeDelay_unitConfig attempt _ (by omega) (by positivity)
        omega
      have hdel2 : computeDelay ⟨1000000000, 1, 1, 0⟩ attempt ((attempt : Int)) 0 = 1 := by
        simpa using hdel
      have hnb : ¬ ((1000000000 : Int) ≤ (attempt : Int)) := by omega
      simp [retryStep, hre, hdel, hdel2, hnb]
    simp only [retryLoop, hstep]
    have hclock : ((attempt : Int) + 0) + 1 = ((attempt + 1 : Nat) : Int) := by push_cast; ring
    rw [hclock]
    exact ih (attempt + 1) (by omega)

/-- C1 counterexample: the claim as stated fails on the code at two concrete
inputs. (a) With JitterPercent 3, BaseDelay 100ns, MaxDelay 1ns, attempt 0,
elapsed 0 and random sample 0, the pre-jitter delay is 1ns, the post-jitter
delay is negative, and the code substitutes BaseDelay: the final delay is
100ns, which an actual attempt sleeps (the budget 1ms does not clamp it), yet
(1+j)*base = 4ns, so the delay escapes [(1-j)*base, (1+j)*base] even after
the claimed clamps. (b) With BaseDelay 1ns and MaxDelay 1ns the loop is still
running after 64 invocations, so attempt 63 occurs, and there the int64
overflow of BaseDelay * 2^63 makes the pre-jitter delay the wrapped value
-2^63 instead of min(BaseDelay * 2^63, MaxDelay) = 1. -/
theorem retry_backoff_claim_counterexample :
    (computeBaseDelay ⟨1000000, 100, 1, 3⟩ 0 = 1 ∧
     computeDelay ⟨1000000, 100, 1, 3⟩ 0 0 0 = 100 ∧
     retryStep ⟨1000000, 100, 1, 3⟩ 0 0 (some ⟨"database is locked"⟩) 0 =
       RetryStep.sleepRetry 100 ∧
     ¬ ((100 : ℚ) ≤ (1 + (3 : ℚ)) * ((computeBaseDelay ⟨1000000, 100, 1, 3⟩ 0 : Int) : ℚ))) ∧
    (retryLoop ⟨1000000000, 1, 1, 0⟩ (fun _ => some ⟨"database is locked"⟩)
        (fun _ => 0) (fun _ => 0) 64 0 0 = none ∧
     computeBaseDelay ⟨1000000000, 1, 1, 0⟩ 63 ≠
       min ((1 : Int) * 2 ^ 63) 1) := by
  have hdel : computeDelay ⟨1000000, 100, 1, 3⟩ 0 0 0 = 100 := by
    norm_num [computeDelay, computeBaseDelay, computeJitter, ratTrunc, goShlOneInt, wrap64]
  refine ⟨⟨by decide, hdel, ?_, ?_⟩, ?_, by decide⟩
  · have hre : isRetryableError ⟨"database is locked"⟩ = true := by decide
    simp [retryStep, hre, hdel]
  · have hb : computeBaseDelay ⟨1000000, 100, 1, 3⟩ 0 = 1 := by decide
    rw [hb]
    norm_num
  · have h := retryLoop_unitConfig_reaches_64 64 0 (by omega)
    simpa using h

/-- C2: an operation whose first result is an error not classified as
transient-lock (text containing neither "database is locked" nor
"SQLITE_BUSY") is invoked exactly once: the executor returns that error with
invocation count 1, with no sleep and no retry. -/
theorem retry_nonretryable_single_invocation (config : RetryConfig)
    (results : Nat → Option GoError) (opDur : Nat → Int) (us : Nat → ℚ)
    (fuel : Nat) (e : GoError)
    (h0 : results 0 = some e) (hnr : isRetryableError e = false) (hf : 0 < fuel) :
    retryDatabaseOperation config results opDur us fuel = some (some e, 1) := by
  obtain ⟨f, rfl⟩ : ∃ f, fuel = f + 1 := ⟨fuel - 1, by omega⟩
  simp [retryDatabaseOperation, retryLoop, h0, retryStep, hnr]

/-- C2 witness: a constraint-violation error is returned after exactly one
invocation under the default configuration. -/
theorem retry_nonretryable_single_invocation_witness :
    isRetryableError ⟨"UNIQUE constraint failed: users.email"⟩ = false ∧
    retryDatabaseOperation DefaultRetryConfig
        (fun _ => some ⟨"UNIQUE constraint failed: users.email"⟩)
        (fun _ => 0) (fun _ => 0) 5 =
      some (some ⟨"UNIQUE constraint failed: users.email"⟩, 1) :=
  ⟨by decide,
   retry_nonretryable_single_invocation DefaultRetryConfig
     (fun _ => some ⟨"UNIQUE constraint failed: users.email"⟩)
     (fun _ => 0) (fun _ => 0) 5 ⟨"UNIQUE constraint failed: users.email"⟩
     rfl (by decide) (by omega)⟩

/-- Case analysis of the loop body for a transient-lock error. -/
lemma retryStep_of_retryable {config : RetryConfig} {attempt : Nat} {elapsed : Int}
    {e : GoError} {u : ℚ} (hre : isRetryableError e = true) :
    retryStep config attempt elapsed (some e) u =
      (if config.maxRetryDuration ≤ elapsed then RetryStep.ret (some e)
       else if computeDelay config attempt elapsed u ≤ 0 then RetryStep.ret (some e)
       else RetryStep.sleepRetry (computeDelay config attempt elapsed u)) := by
  simp [retryStep, hre]

/-- Fuel sufficiency: when every result is a retryable error and operation
times are nonnegative, the loop returns (the error of its last invocation)
once the fuel exceeds the remaining budget, because every sleep lasts at
least 1ns and the slept delay never exceeds the remaining budget. -/
lemma retryLoop_total (config : RetryConfig) (results : Nat → Option GoError)
    (opDur : Nat → Int) (us : Nat → ℚ)
    (hres : ∀ i, ∃ e, results i = some e ∧ isRetryableError e = true)
    (hdur : ∀ i, 0 ≤ opDur i) :
    ∀ (fuel attempt : Nat) (clock : Int),
      (config.maxRetryDuration - clock).toNat < fuel →
      ∃ n e, retryLoop config results opDur us fuel attempt clock = some (some e, n) ∧
        results (n - 1) = some e := by
  intro fuel
  induction fuel with
  | zero => intro attempt clock hf; omega
  | succ f ih =>
    intro attempt clock hf
    obtain ⟨e, he, hre⟩ := hres attempt
    have hd := hdur attempt
    simp only [retryLoop, he, retryStep_of_retryable hre]
    split_ifs with h1 h2
    · exact ⟨attempt + 1, e, rfl, by simpa using he⟩
    · exact ⟨attempt + 1, e, rfl, by simpa using he⟩
    · have hrem := computeDelay_le_remaining config attempt (clock + opDur attempt) (us attempt)
      exact ih (attempt + 1) (clock + opDur attempt + computeDelay config attempt (clock + opDur attempt) (us attempt))
        (by omega)

/-- C3: for an operation that always returns a transient-lock error the loop
terminates, returning the error of its last invocation, within
MaxRetryDuration.toNat + 1 invocations; a retryable-error iteration returns
exactly when the elapsed time has reached MaxRetryDuration or the computed
delay is ≤ 0; and an iteration whose operation succeeds returns nil
immediately. -/
theorem retry_terminates_and_exit_condition (config : RetryConfig)
    (results : Nat → Option GoError) (opDur : Nat → Int) (us : Nat → ℚ)
    (hres : ∀ i, ∃ e, results i = some e ∧ isRetryableError e = true)
    (hdur : ∀ i, 0 ≤ opDur i) :
    (∃ n e, retryDatabaseOperation config results opDur us
        (config.maxRetryDuration.toNat + 1) = some (some e, n) ∧
      results (n - 1) = some e) ∧
    (∀ (k : Nat) (elapsed : Int) (e : GoError), results k = some e →
      (retryStep config k elapsed (results k) (us k) = RetryStep.ret (some e) ↔
        config.maxRetryDuration ≤ elapsed ∨ computeDelay config k elapsed (us k) ≤ 0)) ∧
    (∀ (k : Nat) (elapsed : Int) (u : ℚ),
      retryStep config k elapsed none u = RetryStep.ret none) := by
  refine ⟨?_, ?_, fun k elapsed u => rfl⟩
  · exact retryLoop_total config results opDur us hres hdur _ 0 0 (by omega)
  · intro k elapsed e hk
    obtain ⟨e0, he0, hre0⟩ := hres k
    have heq : e0 = e := by
      rw [he0] at hk
      exact Option.some.inj hk
    subst heq
    rw [he0, retryStep_of_retryable hre0]
    split_ifs with h1 h2
    · simp [h1]
    · simp [h1, h2]
    · simp [h1, h2]

/-- C3 witness: an always-locked operation under the default configuration
terminates with the lock error. -/
theorem retry_terminates_witness :
    ∃ n e, retryDatabaseOperation DefaultRetryConfig
        (fun _ => some ⟨"database is locked"⟩) (fun _ => 0) (fun _ => 0)
        (DefaultRetryConfig.maxRetryDuration.toNat + 1) = some (some e, n) ∧
      (fun _ => some (⟨"database is locked"⟩ : GoError)) (n - 1) = some e :=
  (retry_terminates_and_exit_condition DefaultRetryConfig
    (fun _ => some ⟨"database is locked"⟩) (fun _ => 0) (fun _ => 0)
    (fun _ => ⟨⟨"database is locked"⟩, rfl, by decide⟩)
    (fun _ => le_refl 0)).1

/-- Characterization of the sequence validator loop: it accepts exactly the
lists whose versions are consecutive starting from the carried expectation. -/
lemma validateFrom_ok_iff (ms : List Migration) :
    ∀ n, validateFrom n ms = Except.ok () ↔
      ms.map (fun m => m.version) = List.range' n ms.length := by
  induction ms with
  | nil =>
    intro n
    simp [validateFrom, List.range']
  | cons m rest ih =>
    intro n
    have hrange : List.range' n (rest.length + 1) = n :: List.range' (n + 1) rest.length := rfl
    by_cases h : m.version = n
    · simp [validateFrom, h, ih, hrange]
    · simp [validateFrom, h, hrange]

/-- C4 counterexample: a directory-backed source whose present versions are
1 and 3 (2 missing) loads without any error; both migrations are returned. -/
theorem gap_source_loads_without_error :
    loadMigrationsFromDirectory "source-a"
        [("001_a.up.sql", "CREATE TABLE a (id TEXT);"),
         ("003_b.up.sql", "CREATE TABLE b (id TEXT);")] =
      Except.ok
        [⟨1, "a", "source-a", "CREATE TABLE a (id TEXT);", ""⟩,
         ⟨3, "b", "source-a", "CREATE TABLE b (id TEXT);", ""⟩] := rfl

/-- C4 (amended): validateMigrationSequence accepts exactly the gap-free
sequences starting at 1 and rejects a gapped one with an error naming the
expected version, but loadMigrationsFromDirectory never invokes it, so a
source with versions 1 and 3 loads successfully and returns both
migrations. -/
theorem migration_gap_validator_unused :
    (∀ ms : List Migration,
      validateMigrationSequence ms = Except.ok () ↔
        ms.map (fun m => m.version) = List.range' 1 ms.length) ∧
    validateMigrationSequence
        [⟨1, "a", "s", "A", ""⟩, ⟨3, "b", "s", "B", ""⟩] =
      Except.error "migration sequence gap: expected version 2, found 3" ∧
    loadMigrationsFromDirectory "s" [("001_a.up.sql", "A"), ("003_b.up.sql", "B")] =
      Except.ok [⟨1, "a", "s", "A", ""⟩, ⟨3, "b", "s", "B", ""⟩] := by
  refine ⟨fun ms => ?_, by rfl, by rfl⟩
  cases ms with
  | nil => simp [validateMigrationSequence, List.range']
  | cons m rest => simp [validateMigrationSequence, validateFrom_ok_iff]

/-- C5 counterexample: a *.sql file without the direction suffix is silently
skipped, not a load error: the source loads successfully with no
migrations. -/
theorem malformed_filename_loads_without_error :
    loadMigrationsFromDirectory "s" [("001_name.sql", "CREATE TABLE t (id TEXT);")] =
      Except.ok [] := rfl

/-- C5 (amended): files whose names miss the direction suffix or carry a
non-numeric version are silently skipped by the directory loader (the load
succeeds without them); the parseMigrationFilename helper rejects exactly
such names with an error naming the offending file, but the loader never
calls it. -/
theorem malformed_filenames_skipped_not_errors :
    (∀ c : String, loadMigrationsFromDirectory "s" [("001_name.sql", c)] = Except.ok []) ∧
    (∀ c : String, loadMigrationsFromDirectory "s" [("abc_name.up.sql", c)] = Except.ok []) ∧
    parseMigrationFilename "001_name.sql" =
      Except.error "migration file must end with .up.sql or .down.sql: 001_name.sql" ∧
    parseMigrationFilename "abc_name.up.sql" =
      Except.error "invalid version number in filename abc_name.up.sql" :=
  ⟨fun _ => rfl, fun _ => rfl, rfl, rfl⟩

/-- C6 counterexample: two files with the same version and the same direction
are not a load error: the source loads successfully and the later file's
content is kept. -/
theorem duplicate_direction_loads_without_error :
    loadMigrationsFromDirectory "s" [("001_a.up.sql", "A"), ("001_b.up.sql", "B")] =
      Except.ok [⟨1, "a", "s", "B", ""⟩] := rfl

/-- C6 (amended): for two files with the same version and direction, the
loader raises no error; the file later in the Glob listing overwrites the
earlier one's content for that direction, while the migration keeps the name
recorded when its map entry was first created. -/
theorem duplicate_direction_overwrites :
    ∀ cA cB : String,
      loadMigrationsFromDirectory "dup" [("001_a.up.sql", cA), ("001_b.up.sql", cB)] =
        Except.ok [⟨1, "a", "dup", cB, ""⟩] :=
  fun _ _ => rfl

/-- Appending the same suffix to two different strings keeps them different. -/
lemma string_append_right_cancel {p q s : String} (h : p ++ s = q ++ s) : p = q := by
  cases p with
  | mk dp =>
    cases q with
    | mk dq =>
      cases s with
      | mk ds =>
        have hd : dp ++ ds = dq ++ ds := congrArg String.data h
        exact congrArg String.mk (List.append_cancel_right hd)

/-- The tracking table is always the prefix followed by schema_migrations
(the empty-prefix legacy path uses the engine default, which is the same
concatenation). -/
lemma resolveTrackingTable_eq (p : String) :
    resolveTrackingTable p = p ++ "schema_migrations" := by
  unfold resolveTrackingTable
  split_ifs with h
  · rw [h]
    rfl
  · rfl

/-- C7: the runner resolves the version-tracking table of a source as its
prefix concatenated with schema_migrations; the empty prefix yields exactly
schema_migrations; distinct prefixes always yield distinct tracking tables,
so identical version numbers across two prefixed sources never collide. -/
theorem tracking_table_prefix_isolation :
    (∀ p : String, resolveTrackingTable p = p ++ "schema_migrations") ∧
    resolveTrackingTable "" = "schema_migrations" ∧
    (∀ p q : String, p ≠ q → resolveTrackingTable p ≠ resolveTrackingTable q) := by
  refine ⟨resolveTrackingTable_eq, rfl, fun p q hne hcontra => ?_⟩
  rw [resolveTrackingTable_eq, resolveTrackingTable_eq] at hcontra
  exact hne (string_append_right_cancel hcontra)

/-- C7 witness: the prefixes of the repository's own prefix test give
disjoint tracking tables. -/
theorem tracking_table_prefix_isolation_witness :
    resolveTrackingTable "user_" ≠ resolveTrackingTable "app_" :=
  tracking_table_prefix_isolation.2.2 "user_" "app_" (by decide)

/-- C8 (amended): when every earlier source that reaches the engine succeeds
and a directory-backed source fails, UpAll stops at the failing source: its
result is the rows applied by the earlier sources plus the rows the failing
source applied before its error (all of which remain applied; nothing is
rolled back), later sources are never processed, and the returned error is
the wrap naming the failing source around the engine's cause. The error
names the failing version only as far as the engine's own message does. -/
theorem UpAll_failure_stops_and_wraps (run : MigrationSource → SourceRun)
    (pre post : List MigrationSource) (s : MigrationSource) (e : String)
    (hpre : ∀ t ∈ pre, (t.embedFS = true ∨ t.directory ≠ "") → (run t).result = none)
    (hs1 : s.embedFS = false) (hs2 : s.directory ≠ "") (hs3 : (run s).result = some e) :
    UpAll run (pre ++ s :: post) =
      ((pre.map (sourceEffect run)).flatten ++ (run s).applied,
       some ("failed to run directory migrations for " ++ s.name ++ ": " ++ e)) := by
  induction pre with
  | nil =>
    simp [UpAll, hs1, hs2, hs3]
  | cons t ts ih =>
    have hts : ∀ x ∈ ts, (x.embedFS = true ∨ x.directory ≠ "") → (run x).result = none :=
      fun x hx => hpre x (List.mem_cons_of_mem t hx)
    have hih := ih hts
    cases hemb : t.embedFS with
    | true =>
      have hres := hpre t (List.mem_cons_self t ts) (Or.inl hemb)
      simp [UpAll, hemb, hres, hih, sourceEffect, List.append_assoc]
    | false =>
      by_cases hdir : t.directory = ""
      · simp [UpAll, hemb, hdir, hih, sourceEffect]
      · have hres := hpre t (List.mem_cons_self t ts) (Or.inr hdir)
        simp [UpAll, hemb, hdir, hres, hih, sourceEffect, List.append_assoc]

/-- C8 witness: one directory source whose engine run recorded version 1 and
then failed; the applied row remains and the error wraps the cause, naming
the source. -/
theorem UpAll_failure_stops_and_wraps_witness :
    UpAll (fun _ => ⟨[("schema_migrations", 1)], some "syntax error"⟩)
        [⟨"alpha", "/m", false, ""⟩] =
      ([("schema_migrations", 1)],
       some "failed to run directory migrations for alpha: syntax error") := by
  have h := UpAll_failure_stops_and_wraps
    (fun _ => ⟨[("schema_migrations", 1)], some "syntax error"⟩)
    [] [] ⟨"alpha", "/m", false, ""⟩ "syntax error"
    (by simp) (by rfl) (by decide) (by rfl)
  simpa using h

/-- C8 counterexample: the wrapped error names the failing source but not the
failing version. Here the engine applied version 1 and then failed at
version 2 with the cause "syntax error"; the returned message contains
neither "1" nor "2" (it contains no digit at all), so it does not name the
failing version. -/
theorem UpAll_error_omits_version :
    UpAll (fun _ => ⟨[("schema_migrations", 1)], some "syntax error"⟩)
        [⟨"alpha", "/m", false, ""⟩] =
      ([("schema_migrations", 1)],
       some "failed to run directory migrations for alpha: syntax error") ∧
    goContains "failed to run directory migrations for alpha: syntax error" "1" = false ∧
    goContains "failed to run directory migrations for alpha: syntax error" "2" = false :=
  ⟨rfl, rfl, rfl⟩

/-- Copying a list by repeated append reproduces the list. -/
lemma foldl_append_singleton (l : List MigrationSource) :
    ∀ acc : List MigrationSource, l.foldl (fun acc s => acc ++ [s]) acc = acc ++ l := by
  induction l with
  | nil => intro acc; simp
  | cons x xs ih =>
    intro acc
    simp [List.foldl_cons, ih]

/-- Registering a sequence of sources appends them in call order. -/
lemma registerAll_eq (calls : List MigrationSource) :
    ∀ st : List MigrationSource, registerAll st calls = st ++ calls := by
  induction calls with
  | nil => intro st; simp [registerAll]
  | cons c cs ih =>
    intro st
    simp only [registerAll, List.foldl_cons] at ih ⊢
    rw [ih (RegisterMigrations st c)]
    simp [RegisterMigrations]

/-- C9: the registry is an append-only list in registration order — a
sequence of Register calls appends exactly those sources, with no
deduplication (registering the same source twice stores it twice); the
snapshot is a copy equal to the registry contents; and a client mutating the
returned snapshot slice leaves the registry contents unchanged. -/
theorem registry_append_only_snapshot_copy :
    (∀ (st : List MigrationSource) (calls : List MigrationSource),
      registerAll st calls = st ++ calls) ∧
    (∀ (st : List MigrationSource) (s : MigrationSource),
      registerAll st [s, s] = st ++ [s, s]) ∧
    (∀ st : List MigrationSource, GetRegisteredSources st = st) ∧
    (∀ (st : List MigrationSource) (f : List MigrationSource → List MigrationSource),
      (snapshotThenMutate st f).1 = st ∧ (snapshotThenMutate st f).2 = f st) := by
  refine ⟨fun st calls => registerAll_eq calls st,
          fun st s => registerAll_eq [s, s] st,
          fun st => ?_,
          fun st f => ⟨rfl, ?_⟩⟩
  · simpa using foldl_append_singleton st []
  · show f (GetRegisteredSources st) = f st
    congr 1
    simpa using foldl_append_singleton st []

/-- C10: GetMigrationStatus returns a nil Go error no matter what is
registered; it reports one entry per source, in order; a source whose
migrations fail to load is reported inside the map with that load error's
string and a migration_count of 0; and the registry state is unchanged. -/
theorem getMigrationStatus_nil_error_reports_failures :
    ∀ (st : List MigrationSource) (fs : String → List (String × String)),
      (GetMigrationStatus st fs).2.2 = none ∧
      (GetMigrationStatus st fs).1 = st ∧
      (GetMigrationStatus st fs).2.1 = (st.length, st.map (sourceStatusOf fs)) ∧
      (∀ (source : MigrationSource) (e : String),
        loadMigrationsFromSource fs source = Except.error e →
          sourceStatusOf fs source =
            ⟨source.name, source.directory != "", source.embedFS, some e, 0⟩) := by
  intro st fs
  have hsnap : GetRegisteredSources st = st := by
    have h : ∀ acc : List MigrationSource,
        st.foldl (fun acc s => acc ++ [s]) acc = acc ++ st := by
      induction st with
      | nil => intro acc; simp
      | cons x xs ih => intro acc; simp [List.foldl_cons, ih]
    simpa [GetRegisteredSources] using h []
  refine ⟨rfl, rfl, ?_, fun source e he => ?_⟩
  · simp [GetMigrationStatus, hsnap]
  · simp [sourceStatusOf, he]

/-- C10 witness: a source with neither a directory nor an embedded filesystem
fails to load, and its status entry carries the error string with count 0. -/
theorem getMigrationStatus_nil_error_reports_failures_witness :
    loadMigrationsFromSource (fun _ => []) ⟨"ghost", "", false, ""⟩ =
      Except.error "migration source ghost has neither Directory nor EmbedFS specified" ∧
    sourceStatusOf (fun _ => []) ⟨"ghost", "", false, ""⟩ =
      ⟨"ghost", false, false,
       some "migration source ghost has neither Directory nor EmbedFS specified", 0⟩ :=
  ⟨rfl,
   by
    have h := (getMigrationStatus_nil_error_reports_failures
      [⟨"ghost", "", false, ""⟩] (fun _ => [])).2.2.2
      ⟨"ghost", "", false, ""⟩
      "migration source ghost has neither Directory nor EmbedFS specified" rfl
    simpa using h⟩

end GoDatabase
